import Mathlib

/-!
Shallow embedding of the `flv` crate (FLV media-container codec) together
with theorems checking its natural-language specification.

Conventions of the embedding:
* machine integers are modelled as `Nat` (unsigned) or `Int` (signed), with
  explicit `% 2^w` arithmetic where the Rust code relies on fixed widths;
* byte slices and byte sources are `List Nat` whose elements are < 256
  (stated as hypotheses where a theorem needs it);
* Rust `Result` becomes `Except`; the stateful `std::io::Read` cursor of
  `FlvReader` becomes explicit state passing of the remaining byte list;
* `f64` fields of `MetaData` are stored as their 8-byte big-endian bit
  pattern (a `Nat < 2^64`), which is a bijective representation of the
  decoded `f64`; `String` fields are stored as their UTF-8 byte lists.
-/

namespace Flv

/-! ## Error types (src/error.rs) -/

/-- `ParseError` from src/error.rs. -/
inductive ParseError where
  | HeaderSignature (s1 s2 s3 : Nat)
  | HeaderTypeFlagsReserved (f : Nat)
  | HeaderVersion (v : Nat)
  | HeaderDataOffset (o : Nat)
  | MetadataType
  | SoundFormat (n : Nat)
  | SoundRate (n : Nat)
  | SoundSize (n : Nat)
  | SoundType (n : Nat)
  | VideoFrameType (n : Nat)
  | VideoCodecId (n : Nat)
  | SeekFlag (n : Nat)
deriving DecidableEq, Repr

/-- `ReadError` from src/error.rs. -/
inductive ReadError where
  | Eof
deriving DecidableEq, Repr

/-- The only `std::io::ErrorKind` the library itself produces
(`failed to fill whole buffer` in `try_read_exact`, and the kind raised by
`std::io::Read::read_exact` on a short read). -/
inductive IoErrorKind where
  | UnexpectedEof
deriving DecidableEq, Repr

/-- `Error` from src/error.rs (the variants reachable from the embedded
code; `Unimplemented` carries the offending marker byte that the Rust code
formats into its message string). -/
inductive Error where
  | Parse (e : ParseError)
  | Io (k : IoErrorKind)
  | Read (e : ReadError)
  | DataSize (n : Nat)
  | Utf8
  | Other (s : String)
  | Unimplemented (marker : Nat)
deriving DecidableEq, Repr

/-! ## Big-endian byte helpers -/

/-- `u32::from_be_bytes([a, b, c, d])`. -/
def fromBE4 (a b c d : Nat) : Nat :=
  ((a * 256 + b) * 256 + c) * 256 + d

/-- `u32::to_be_bytes` of a `u32` value (modelled on `Nat`, reducing each
byte mod 256 exactly as the fixed width does). -/
def toBE4 (n : Nat) : List Nat :=
  [n / 2 ^ 24 % 256, n / 2 ^ 16 % 256, n / 2 ^ 8 % 256, n % 256]

/-- `u64::from_be_bytes` (used for `f64::from_be_bytes` bit patterns). -/
def fromBE8 (b0 b1 b2 b3 b4 b5 b6 b7 : Nat) : Nat :=
  fromBE4 b0 b1 b2 b3 * 2 ^ 32 + fromBE4 b4 b5 b6 b7

/-! ## Header (src/types.rs) -/

/-- `Header` from src/types.rs. -/
structure Header where
  version : Nat
  audio_flag : Bool
  video_flag : Bool
  data_offset : Nat
deriving DecidableEq, Repr

/-- `Header::SIGNATURE`: the bytes of `"FLV"`. -/
def Header.SIGNATURE : List Nat := [70, 76, 86]

/-- `Header::VERSION_1`. -/
def Header.VERSION_1 : Nat := 1

/-- `Header::SIZE`. -/
def Header.SIZE : Nat := 9

/-- `TryFrom<&[u8; 9]> for Header` (src/types.rs:29-64).  The source
destructures its fixed-size input into nine bytes; the final wildcard arm
is unreachable because the Rust input type is `[u8; 9]`. -/
def Header.tryFrom (b : List Nat) : Except ParseError Header :=
  match b with
  | [f, l, v, version, flag, d1, d2, d3, d4] =>
    if [f, l, v] = Header.SIGNATURE then
      if version ≠ Header.VERSION_1 then .error (.HeaderVersion version)
      else
        let reserved_flag := 0b11111010 &&& flag
        if reserved_flag ≠ 0 then .error (.HeaderTypeFlagsReserved reserved_flag)
        else
          let audio_flag := (0b00000100 &&& flag) != 0
          let video_flag := (0b00000001 &&& flag) != 0
          let data_offset := fromBE4 d1 d2 d3 d4
          if data_offset ≠ Header.SIZE then .error (.HeaderDataOffset data_offset)
          else .ok { version, audio_flag, video_flag, data_offset }
    else .error (.HeaderSignature f l v)
  | _ => .error (.HeaderSignature 0 0 0)

/-- `From<Header> for [u8; 9]` (src/types.rs:66-85): note the source encodes
the data-offset field from the constant `Header::SIZE`, not from
`h.data_offset`. -/
def Header.toBytes (h : Header) : List Nat :=
  let flag := (if h.audio_flag then 0b0000100 else 0) ||| (if h.video_flag then 0b00000001 else 0)
  [70, 76, 86, h.version, flag] ++ toBE4 Header.SIZE

/-! ## TagType and TagHeader (src/types.rs) -/

/-- `TagType` from src/types.rs. -/
inductive TagType where
  | Audio
  | Video
  | ScriptData
  | Reserved (n : Nat)
deriving DecidableEq, Repr

/-- `From<TagType> for u8`. -/
def TagType.toU8 : TagType → Nat
  | .Audio => 8
  | .Video => 9
  | .ScriptData => 18
  | .Reserved n => n

/-- `TagHeader` from src/types.rs.  `data_size` is a `u32` (kept ≤ 0xFFFFFF
in valid streams), `timestamp` an `i32`. -/
structure TagHeader where
  tag_type : TagType
  data_size : Nat
  timestamp : Int
deriving DecidableEq, Repr

/-- `TagHeader::SIZE` (= 11). -/
def TagHeader.SIZE : Nat := (8 + 24 + 24 + 8 + 24) / 8

/-- `TagHeader::MAX_DATA_SIZE` (= 0x00FFFFFF). -/
def TagHeader.MAX_DATA_SIZE : Nat := 0xffffff

/-- `i32::from_be_bytes([a, b, c, d])`: two's-complement interpretation. -/
def i32FromBE (a b c d : Nat) : Int :=
  let n := fromBE4 a b c d
  if n < 2 ^ 31 then (n : Int) else (n : Int) - 2 ^ 32

/-- `From<&[u8; 11]> for TagHeader` (src/types.rs:138-166).  Total: every
11-byte input decodes; the tag-type byte falls back to `Reserved`; the
last three (stream-id) bytes are ignored.  The wildcard arm is unreachable
because the Rust input type is `[u8; 11]`. -/
def TagHeader.fromBytes (b : List Nat) : TagHeader :=
  match b with
  | [tt, s1, s2, s3, t1, t2, t3, t0, _, _, _] =>
    let tag_type :=
      if tt = 8 then TagType.Audio
      else if tt = 9 then TagType.Video
      else if tt = 18 then TagType.ScriptData
      else TagType.Reserved tt
    let data_size := fromBE4 0 s1 s2 s3
    let timestamp := i32FromBE t0 t1 t2 t3
    { tag_type, data_size, timestamp }
  | _ => { tag_type := .Reserved 0, data_size := 0, timestamp := 0 }

/-- `From<TagHeader> for [u8; 11]` (src/types.rs:168-177): drops the top
byte of `data_size`, splits the `i32` timestamp into its two's-complement
bytes (upper byte goes to position 7), and zeroes the stream id. -/
def TagHeader.toBytes (h : TagHeader) : List Nat :=
  let tt := h.tag_type.toU8
  let ds := h.data_size
  let ts := (h.timestamp % (2 ^ 32 : Int)).toNat
  [tt, ds / 2 ^ 16 % 256, ds / 2 ^ 8 % 256, ds % 256,
   ts / 2 ^ 16 % 256, ts / 2 ^ 8 % 256, ts % 256, ts / 2 ^ 24 % 256, 0, 0, 0]

/-! ## Audio/video sub-headers (src/types.rs), encode direction
(the direction the writer uses) -/

/-- `SoundFormat` (src/types.rs:181-196); `toU8` is the `as u8` value. -/
inductive SoundFormat where
  | LinearPCMPlatformEndian | ADPCM | MP3 | LinearPCMLittleEndian
  | Nellymoser16 | Nellymoser8 | Nellymoser | G711ALaw | G711MuLaw
  | Reserved | AAC | Speex | MP38kHz | DeviceSpecific
deriving DecidableEq, Repr

/-- `SoundFormat as u8`. -/
def SoundFormat.toU8 : SoundFormat → Nat
  | .LinearPCMPlatformEndian => 0 | .ADPCM => 1 | .MP3 => 2
  | .LinearPCMLittleEndian => 3 | .Nellymoser16 => 4 | .Nellymoser8 => 5
  | .Nellymoser => 6 | .G711ALaw => 7 | .G711MuLaw => 8 | .Reserved => 9
  | .AAC => 10 | .Speex => 11 | .MP38kHz => 14 | .DeviceSpecific => 15

/-- `SoundRate` (src/types.rs:230-235). -/
inductive SoundRate where
  | R5p5kHz | R11kHz | R22kHz | R44kHz
deriving DecidableEq, Repr

/-- `SoundRate as u8`. -/
def SoundRate.toU8 : SoundRate → Nat
  | .R5p5kHz => 0 | .R11kHz => 1 | .R22kHz => 2 | .R44kHz => 3

/-- `SoundSize` (src/types.rs:259-262). -/
inductive SoundSize where
  | S8Bit | S16Bit
deriving DecidableEq, Repr

/-- `SoundSize as u8`. -/
def SoundSize.toU8 : SoundSize → Nat
  | .S8Bit => 0 | .S16Bit => 1

/-- `SoundType` (src/types.rs:284-287). -/
inductive SoundType where
  | Mono | Stereo
deriving DecidableEq, Repr

/-- `SoundType as u8`. -/
def SoundType.toU8 : SoundType → Nat
  | .Mono => 0 | .Stereo => 1

/-- `AudioDataHeader` (src/types.rs:309-314). -/
structure AudioDataHeader where
  sound_format : SoundFormat
  sound_rate : SoundRate
  sound_size : SoundSize
  sound_type : SoundType
deriving DecidableEq, Repr

/-- `From<AudioDataHeader> for u8` (src/types.rs:334-341): 4/2/1/1-bit pack. -/
def AudioDataHeader.toU8 (h : AudioDataHeader) : Nat :=
  (h.sound_format.toU8 <<< 4) ||| (h.sound_rate.toU8 <<< 2) |||
    (h.sound_size.toU8 <<< 1) ||| h.sound_type.toU8

/-- `VideoFrameType` (src/types.rs:344-350). -/
inductive VideoFrameType where
  | KeyFrame | InterFrame | DisposableInterFrame | GeneratedKeyFrame
  | VideoInfoOrCommandFrame
deriving DecidableEq, Repr

/-- `VideoFrameType as u8`. -/
def VideoFrameType.toU8 : VideoFrameType → Nat
  | .KeyFrame => 1 | .InterFrame => 2 | .DisposableInterFrame => 3
  | .GeneratedKeyFrame => 4 | .VideoInfoOrCommandFrame => 5

/-- `VideoCodecId` (src/types.rs:375-384). -/
inductive VideoCodecId where
  | JPEG | SorensonH263 | ScreenVideo | On2VP6 | On2VP6WithAlpha
  | ScreenVideoVersion2 | AVC
deriving DecidableEq, Repr

/-- `VideoCodecId as u8`. -/
def VideoCodecId.toU8 : VideoCodecId → Nat
  | .JPEG => 1 | .SorensonH263 => 2 | .ScreenVideo => 3 | .On2VP6 => 4
  | .On2VP6WithAlpha => 5 | .ScreenVideoVersion2 => 6 | .AVC => 7

/-- `VideoDataHeader` (src/types.rs:412-415). -/
structure VideoDataHeader where
  frame_type : VideoFrameType
  codec_id : VideoCodecId
deriving DecidableEq, Repr

/-- `From<VideoDataHeader> for u8` (src/types.rs:431-435): 4/4-bit pack. -/
def VideoDataHeader.toU8 (h : VideoDataHeader) : Nat :=
  (h.frame_type.toU8 <<< 4) ||| h.codec_id.toU8

/-! ## FlvWriter (src/stdio.rs:12-80)

The underlying `Write` sink is modelled as the list of bytes written so
far; `write_all` appends.  Each operation returns the new sink contents
together with the function's `u64` return value. -/

/-- `FlvWriter::write_tag` (src/stdio.rs:35-61).  `out` is the sink's prior
contents, `header` the 1-byte sub-header slice, `data` the payload. -/
def writeTag (out : List Nat) (timestamp : Int) (tag_type : TagType)
    (header data : List Nat) : Except Error (List Nat × Nat) :=
  let data_size := data.length
  if data_size > TagHeader.MAX_DATA_SIZE then .error (.DataSize data_size)
  else
    let tag_header : TagHeader := { tag_type, data_size, timestamp }
    let th_data := tag_header.toBytes
    .ok (out ++ th_data ++ header ++ data, TagHeader.SIZE + 1 + data_size)

/-- `FlvWriter::write_video_tag` (src/stdio.rs:63-70). -/
def writeVideoTag (out : List Nat) (timestamp : Int) (header : VideoDataHeader)
    (data : List Nat) : Except Error (List Nat × Nat) :=
  writeTag out timestamp .Video [header.toU8] data

/-- `FlvWriter::write_audio_tag` (src/stdio.rs:72-79). -/
def writeAudioTag (out : List Nat) (timestamp : Int) (header : AudioDataHeader)
    (data : List Nat) : Except Error (List Nat × Nat) :=
  writeTag out timestamp .Audio [header.toU8] data

/-! ## FlvReader primitives (src/stdio.rs:82-443)

The `Read` source is modelled as the list of not-yet-consumed bytes; each
operation returns its result together with the remaining bytes. -/

/-- The byte source. -/
abbrev Src := List Nat

/-- `FlvReader::try_read_exact` (src/stdio.rs:417-442) reading `n` bytes:
`Ok` when the buffer is empty or can be filled completely,
`Read(Eof)` when zero bytes were available for a non-empty buffer,
`Io(UnexpectedEof)` when the source ends mid-buffer. -/
def tryReadExact (n : Nat) (s : Src) : Except Error (List Nat × Src) :=
  if n = 0 then .ok ([], s)
  else if s.length = 0 then .error (.Read .Eof)
  else if s.length < n then .error (.Io .UnexpectedEof)
  else .ok (s.take n, s.drop n)

/-- `FlvReader::read_data` (src/stdio.rs:411-415): fills a buffer of
exactly `len` bytes via `try_read_exact` and returns it. -/
def readData (len : Nat) (s : Src) : Except Error (List Nat × Src) :=
  tryReadExact len s

/-- `FlvReader::read_tag_header` (src/stdio.rs:385-395): an `Eof` from
`try_read_exact` becomes the clean `Ok(None)` outcome, any other error is
propagated, and 11 read bytes are decoded with the total tag-header codec. -/
def readTagHeader (s : Src) : Except Error (Option TagHeader × Src) :=
  match tryReadExact TagHeader.SIZE s with
  | .error (.Read .Eof) => .ok (none, s)
  | .error e => .error e
  | .ok (b, rest) => .ok (some (TagHeader.fromBytes b), rest)

/-! ## UTF-8 validation (Rust `String::from_utf8`)

Standard UTF-8 well-formedness over byte lists: exactly the byte ranges
accepted by Rust's `core::str` validation (rejecting overlong forms,
surrogates and values above U+10FFFF). -/

/-- Continuation byte test: `0x80..=0xBF`. -/
def isCont (b : Nat) : Bool := 0x80 ≤ b && b ≤ 0xBF

/-- UTF-8 well-formedness of a byte list (the check performed by
`String::from_utf8`). -/
def validUtf8 : List Nat → Bool
  | [] => true
  | b :: rest =>
    if b ≤ 0x7F then validUtf8 rest
    else if 0xC2 ≤ b && b ≤ 0xDF then
      match rest with
      | c1 :: rest2 => isCont c1 && validUtf8 rest2
      | [] => false
    else if b = 0xE0 then
      match rest with
      | c1 :: c2 :: rest2 => (0xA0 ≤ c1 && c1 ≤ 0xBF) && isCont c2 && validUtf8 rest2
      | _ => false
    else if (0xE1 ≤ b && b ≤ 0xEC) || (0xEE ≤ b && b ≤ 0xEF) then
      match rest with
      | c1 :: c2 :: rest2 => isCont c1 && isCont c2 && validUtf8 rest2
      | _ => false
    else if b = 0xED then
      match rest with
      | c1 :: c2 :: rest2 => (0x80 ≤ c1 && c1 ≤ 0x9F) && isCont c2 && validUtf8 rest2
      | _ => false
    else if b = 0xF0 then
      match rest with
      | c1 :: c2 :: c3 :: rest2 =>
        (0x90 ≤ c1 && c1 ≤ 0xBF) && isCont c2 && isCont c3 && validUtf8 rest2
      | _ => false
    else if 0xF1 ≤ b && b ≤ 0xF3 then
      match rest with
      | c1 :: c2 :: c3 :: rest2 => isCont c1 && isCont c2 && isCont c3 && validUtf8 rest2
      | _ => false
    else if b = 0xF4 then
      match rest with
      | c1 :: c2 :: c3 :: rest2 =>
        (0x80 ≤ c1 && c1 ≤ 0x8F) && isCont c2 && isCont c3 && validUtf8 rest2
      | _ => false
    else false

/-- Byte list of an ASCII string literal (all key literals compared against
by the decoder are ASCII, where UTF-8 is the identity encoding). -/
def ascii (s : String) : List Nat := s.data.map Char.toNat

/-! ## MetaData (src/types.rs:469-499)

`f64` fields are stored as their 8-byte big-endian bit pattern
(`f64::from_be_bytes` is a bijection between patterns and values; the
default `0.0` has pattern `0`); `String` fields as UTF-8 byte lists;
the `BTreeMap<u32, u64>` as its ascending association list. -/

/-- `MetaData` from src/types.rs, with `Default` values. -/
structure MetaData where
  duration : Nat := 0
  width : Nat := 0
  height : Nat := 0
  video_data_rate : Nat := 0
  framerate : Nat := 0
  video_codec_id : Nat := 0
  audio_date_rate : Nat := 0
  audio_sample_rate : Nat := 0
  audio_sample_size : Nat := 0
  stereo : Bool := false
  audio_codec_id : Nat := 0
  major_brand : List Nat := []
  minor_version : List Nat := []
  compatible_brands : List Nat := []
  encoder : List Nat := []
  filesize : Nat := 0
  has_video : Bool := false
  has_keyframes : Bool := false
  has_audio : Bool := false
  has_metadata : Bool := false
  can_seek_to_end : Bool := false
  data_size : Nat := 0
  video_size : Nat := 0
  audio_size : Nat := 0
  last_timestamp : Nat := 0
  last_keyframe_timestamp : Nat := 0
  last_keyframe_location : Nat := 0
  keyframes : Option (List (Nat × Nat)) := none
deriving DecidableEq, Repr

/-! ## f64 interpretation for the keyframes index

`read_metadata` converts `filepositions` doubles with `as u64` and `times`
doubles with `* 1000.0` then `as u32`.  The bit pattern is decoded exactly
(sign/exponent/mantissa); Rust's float-to-integer `as` casts truncate
toward zero, saturate at the target range, and send NaN to 0.  The one
approximation: the Rust `* 1000.0` rounds its product to the nearest
`f64` before the cast, while the model multiplies exactly in `ℚ`; no
theorem in this file depends on these conversions. -/

/-- Classification of an `f64` bit pattern. -/
inductive F64Class where
  | finite (q : ℚ)
  | posInf
  | negInf
  | nan

/-- Decode a 64-bit IEEE-754 pattern into its exact value. -/
def f64Classify (bits : Nat) : F64Class :=
  let s : Nat := bits / 2 ^ 63 % 2
  let e : Nat := bits / 2 ^ 52 % 2 ^ 11
  let m : Nat := bits % 2 ^ 52
  if e = 2047 then
    if m = 0 then (if s = 1 then .negInf else .posInf) else .nan
  else
    let mag : ℚ :=
      if e = 0 then (m : ℚ) * (2 : ℚ) ^ (-1074 : ℤ)
      else ((2 ^ 52 + m : ℕ) : ℚ) * (2 : ℚ) ^ ((e : ℤ) - 1075)
    .finite (if s = 1 then -mag else mag)

/-- Rust float-as-unsigned cast semantics on an exact value: truncate
toward zero and clamp into `[0, maxVal]`. -/
def ratAsClampedNat (q : ℚ) (maxVal : Nat) : Nat :=
  if q ≤ 0 then 0 else min (Int.toNat ⌊q⌋) maxVal

/-- `f64::from_be_bytes(value) as u64` on the bit pattern. -/
def f64AsU64 (bits : Nat) : Nat :=
  match f64Classify bits with
  | .finite q => ratAsClampedNat q (2 ^ 64 - 1)
  | .posInf => 2 ^ 64 - 1
  | .negInf => 0
  | .nan => 0

/-- `(f64::from_be_bytes(value) * 1000.0) as u32` on the bit pattern. -/
def f64Mul1000AsU32 (bits : Nat) : Nat :=
  match f64Classify bits with
  | .finite q => ratAsClampedNat (q * 1000) (2 ^ 32 - 1)
  | .posInf => 2 ^ 32 - 1
  | .negInf => 0
  | .nan => 0

/-! ## BTreeMap model -/

/-- Ordered insert with replacement on equal keys (`BTreeMap::insert`). -/
def btreeInsert : List (Nat × Nat) → Nat × Nat → List (Nat × Nat)
  | [], p => [p]
  | q :: rest, p =>
    if p.1 < q.1 then p :: q :: rest
    else if p.1 = q.1 then p :: rest
    else q :: btreeInsert rest p

/-- `collect::<BTreeMap<_, _>>()` over a pair iterator. -/
def btreeOfList (l : List (Nat × Nat)) : List (Nat × Nat) :=
  l.foldl btreeInsert []

/-! ## read_metadata (src/stdio.rs:98-362)

`read_metadata` reads through `self.reader.read_exact`, the standard
library call whose only failure on an in-memory source is an
unexpected-EOF I/O error.  Each inline `read_exact` block of the source
becomes one primitive below. -/

/-- One byte via `read_exact(&mut [0u8; 1])`. -/
def readU8 (s : Src) : Except Error (Nat × Src) :=
  match s with
  | b :: rest => .ok (b, rest)
  | [] => .error (.Io .UnexpectedEof)

/-- `u16::from_be_bytes` of two bytes via `read_exact(&mut [0u8; 2])`. -/
def readU16 (s : Src) : Except Error (Nat × Src) :=
  match s with
  | b0 :: b1 :: rest => .ok (b0 * 256 + b1, rest)
  | _ => .error (.Io .UnexpectedEof)

/-- `u32::from_be_bytes` of four bytes via `read_exact(&mut [0u8; 4])`. -/
def readU32 (s : Src) : Except Error (Nat × Src) :=
  match s with
  | b0 :: b1 :: b2 :: b3 :: rest => .ok (fromBE4 b0 b1 b2 b3, rest)
  | _ => .error (.Io .UnexpectedEof)

/-- The bit pattern of `f64::from_be_bytes` of eight bytes via
`read_exact(&mut [0u8; 8])`. -/
def readF64Bits (s : Src) : Except Error (Nat × Src) :=
  match s with
  | b0 :: b1 :: b2 :: b3 :: b4 :: b5 :: b6 :: b7 :: rest =>
    .ok (fromBE8 b0 b1 b2 b3 b4 b5 b6 b7, rest)
  | _ => .error (.Io .UnexpectedEof)

/-- `read_exact` into a `vec![0u8; n]` buffer. -/
def readBytesN (n : Nat) (s : Src) : Except Error (List Nat × Src) :=
  if n ≤ s.length then .ok (s.take n, s.drop n) else .error (.Io .UnexpectedEof)

/-- `read_exact` of `n` bytes followed by `String::from_utf8`
(`Error::Utf8` on invalid UTF-8). -/
def readString (n : Nat) (s : Src) : Except Error (List Nat × Src) := do
  let (b, s1) ← readBytesN n s
  if validUtf8 b then .ok (b, s1) else .error .Utf8

/-- `FlvReader::read_end_marker` (src/stdio.rs:364-376): three bytes that
must spell the 24-bit value 9. -/
def readEndMarker (s : Src) : Except Error (Unit × Src) :=
  match s with
  | e0 :: e1 :: e2 :: rest =>
    if fromBE4 0 e0 e1 e2 ≠ 9 then .error (.Other "invalid end of object")
    else .ok ((), rest)
  | _ => .error (.Io .UnexpectedEof)

/-- The `filepositions` element loop (src/stdio.rs:270-286): each element
is a `0` marker byte plus a double, converted with `as u64`. -/
def readPositionsLoop : Nat → Src → Except Error (List Nat × Src)
  | 0, s => .ok ([], s)
  | n + 1, s => do
    let (marker, s1) ← readU8 s
    if marker ≠ 0 then .error (.Other "invalid filepositions item marker")
    else do
      let (bits, s2) ← readF64Bits s1
      let (rest, s3) ← readPositionsLoop n s2
      .ok (f64AsU64 bits :: rest, s3)

/-- The `times` element loop (src/stdio.rs:322-340): each element is a `0`
marker byte plus a double, converted with `* 1000.0` then `as u32`. -/
def readTimesLoop : Nat → Src → Except Error (List Nat × Src)
  | 0, s => .ok ([], s)
  | n + 1, s => do
    let (marker, s1) ← readU8 s
    if marker ≠ 0 then .error (.Other "invalid times item marker")
    else do
      let (bits, s2) ← readF64Bits s1
      let (rest, s3) ← readTimesLoop n s2
      .ok (f64Mul1000AsU32 bits :: rest, s3)

/-- The double-valued `match key.as_str()` arm (src/stdio.rs:172-191). -/
def setDoubleField (md : MetaData) (key : List Nat) (v : Nat) : MetaData :=
  if key = ascii "duration" then { md with duration := v }
  else if key = ascii "width" then { md with width := v }
  else if key = ascii "height" then { md with height := v }
  else if key = ascii "videodatarate" then { md with video_data_rate := v }
  else if key = ascii "framerate" then { md with framerate := v }
  else if key = ascii "videocodecid" then { md with video_codec_id := v }
  else if key = ascii "audiodatarate" then { md with audio_date_rate := v }
  else if key = ascii "audiosamplerate" then { md with audio_sample_rate := v }
  else if key = ascii "audiosamplesize" then { md with audio_sample_size := v }
  else if key = ascii "audiocodecid" then { md with audio_codec_id := v }
  else if key = ascii "filesize" then { md with filesize := v }
  else if key = ascii "datasize" then { md with data_size := v }
  else if key = ascii "videosize" then { md with video_size := v }
  else if key = ascii "audiosize" then { md with audio_size := v }
  else if key = ascii "lasttimestamp" then { md with last_timestamp := v }
  else if key = ascii "lastkeyframetimestamp" then { md with last_keyframe_timestamp := v }
  else if key = ascii "lastkeyframelocation" then { md with last_keyframe_location := v }
  else md

/-- The boolean-valued `match key.as_str()` arm (src/stdio.rs:201-209). -/
def setBoolField (md : MetaData) (key : List Nat) (v : Bool) : MetaData :=
  if key = ascii "stereo" then { md with stereo := v }
  else if key = ascii "hasVideo" then { md with has_video := v }
  else if key = ascii "hasKeyframes" then { md with has_keyframes := v }
  else if key = ascii "hasAudio" then { md with has_audio := v }
  else if key = ascii "hasMetadata" then { md with has_metadata := v }
  else if key = ascii "canSeekToEnd" then { md with can_seek_to_end := v }
  else md

/-- The string-valued `match key.as_str()` arm (src/stdio.rs:225-231). -/
def setStringField (md : MetaData) (key : List Nat) (v : List Nat) : MetaData :=
  if key = ascii "major_brand" then { md with major_brand := v }
  else if key = ascii "minor_version" then { md with minor_version := v }
  else if key = ascii "compatible_brands" then { md with compatible_brands := v }
  else if key = ascii "encoder" then { md with encoder := v }
  else md

/-- The marker-3 `keyframes` nested object (src/stdio.rs:233-350):
`filepositions` strict array, `times` strict array, positional zip into a
`BTreeMap`, then an end-of-object marker. -/
def readKeyframesObject (md : MetaData) (s : Src) : Except Error (MetaData × Src) := do
  let (len2, s1) ← readU16 s
  let (key2, s2) ← readString len2 s1
  if key2 ≠ ascii "filepositions" then .error (.Other "invalid filepositions key")
  else do
    let (m2, s3) ← readU8 s2
    if m2 ≠ 0x0a then .error (.Other "invalid filepositions marker")
    else do
      let (plen, s4) ← readU32 s3
      let (positions, s5) ← readPositionsLoop plen s4
      let (len3, s6) ← readU16 s5
      let (key3, s7) ← readString len3 s6
      if key3 ≠ ascii "times" then .error (.Other "invalid times key")
      else do
        let (m3, s8) ← readU8 s7
        if m3 ≠ 0x0a then .error (.Other "invalid times marker")
        else do
          let (tlen, s9) ← readU32 s8
          let (times, s10) ← readTimesLoop tlen s9
          let map := btreeOfList (times.zip positions)
          let md1 := { md with keyframes := some map }
          let (_, s11) ← readEndMarker s10
          .ok (md1, s11)

/-- The `for _ in 0..array_len` entry loop of `read_metadata`
(src/stdio.rs:144-358): iterates exactly the declared number of times;
each iteration reads a length-prefixed key, a marker byte, and a
marker-shaped value; unknown markers abort with `Unimplemented`. -/
def readEntriesLoop : Nat → MetaData → Src → Except Error (MetaData × Src)
  | 0, md, s => .ok (md, s)
  | n + 1, md, s => do
    let (len, s1) ← readU16 s
    let (key, s2) ← readString len s1
    let (marker, s3) ← readU8 s2
    if marker = 0 then do
      let (bits, s4) ← readF64Bits s3
      readEntriesLoop n (setDoubleField md key bits) s4
    else if marker = 1 then do
      let (b, s4) ← readU8 s3
      readEntriesLoop n (setBoolField md key (b != 0)) s4
    else if marker = 2 then do
      let (vlen, s4) ← readU16 s3
      let (v, s5) ← readString vlen s4
      readEntriesLoop n (setStringField md key v) s5
    else if marker = 3 ∧ key = ascii "keyframes" then do
      let (md1, s4) ← readKeyframesObject md s3
      readEntriesLoop n md1 s4
    else .error (.Unimplemented marker)

/-- `FlvReader::read_metadata` (src/stdio.rs:98-362): `0x02` marker,
`"onMetaData"` name, `0x08` ECMA-array marker, 4-byte entry count, the
entry loop, then the end-of-object marker.  Returns the decoded record and
the unconsumed remainder of the byte source. -/
def readMetadata (s : Src) : Except Error (MetaData × Src) := do
  let md : MetaData := {}
  let (marker, s1) ← readU8 s
  if marker ≠ 0x02 then .error (.Other "marker error")
  else do
    let (len, s2) ← readU16 s1
    let (name, s3) ← readString len s2
    if name ≠ ascii "onMetaData" then .error (.Other "invalid onMetaData")
    else do
      let (marker2, s4) ← readU8 s3
      if marker2 ≠ 0x08 then .error (.Other "marker error")
      else do
        let (array_len, s5) ← readU32 s4
        let (md1, s6) ← readEntriesLoop array_len md s5
        let (_, s7) ← readEndMarker s6
        .ok (md1, s7)

/-! ## MetaData::seek (src/types.rs:501-517) -/

/-- The `for (ts, offset) in keyframes` loop of `MetaData::seek`:
`Less` updates the running target and continues, `Greater` breaks with the
current target, `Equal` returns immediately. -/
def seekLoop (timestamp : Nat) : List (Nat × Nat) → Option (Nat × Nat) → Option (Nat × Nat)
  | [], target => target
  | (ts, offset) :: rest, target =>
    if ts < timestamp then seekLoop timestamp rest (some (ts, offset))
    else if timestamp < ts then target
    else some (timestamp, offset)

/-- `MetaData::seek` (src/types.rs:501-517). -/
def MetaData.seek (m : MetaData) (timestamp : Nat) : Option (Nat × Nat) :=
  match m.keyframes with
  | some keyframes => seekLoop timestamp keyframes none
  | none => none

/-! ## Concrete payload builders used by the metadata theorems -/

/-- A 2-byte big-endian length prefix followed by the bytes themselves
(the wire form of every string in the metadata grammar). -/
def lp16 (v : List Nat) : List Nat := v.length / 256 :: v.length % 256 :: v

/-- The seventeen double-valued keys recognized by `read_metadata`. -/
def doubleKeys : List (List Nat) :=
  [ascii "duration", ascii "width", ascii "height", ascii "videodatarate",
   ascii "framerate", ascii "videocodecid", ascii "audiodatarate",
   ascii "audiosamplerate", ascii "audiosamplesize", ascii "audiocodecid",
   ascii "filesize", ascii "datasize", ascii "videosize", ascii "audiosize",
   ascii "lasttimestamp", ascii "lastkeyframetimestamp",
   ascii "lastkeyframelocation"]

/-- An onMetaData payload that declares `c` entries but actually contains
exactly one (a `duration` double), properly terminated by the 3-byte
end-of-object marker. -/
def countPayload (c : Nat) : List Nat :=
  [2] ++ lp16 (ascii "onMetaData") ++ [8] ++ [0, 0, 0, c] ++
    (lp16 (ascii "duration") ++ [0] ++ [64, 69, 0, 0, 0, 0, 0, 0]) ++ [0, 0, 9]

/-- A well-formed onMetaData payload with four declared and actual
entries: `duration` (double, bytes `d0..d7`), `stereo` (boolean, byte
`sb`), `encoder` (string `v`), and an arbitrary key `u` carrying a double
(bytes `w0..w7`). -/
def knownKeysPayload (d0 d1 d2 d3 d4 d5 d6 d7 sb : Nat) (v u : List Nat)
    (w0 w1 w2 w3 w4 w5 w6 w7 : Nat) : List Nat :=
  [2] ++ lp16 (ascii "onMetaData") ++ [8] ++ [0, 0, 0, 4] ++
    (lp16 (ascii "duration") ++ [0] ++ [d0, d1, d2, d3, d4, d5, d6, d7]) ++
    (lp16 (ascii "stereo") ++ [1] ++ [sb]) ++
    (lp16 (ascii "encoder") ++ [2] ++ lp16 v) ++
    (lp16 u ++ [0] ++ [w0, w1, w2, w3, w4, w5, w6, w7]) ++
    [0, 0, 9]

/-! # Theorems -/

/-! ## Helper lemmas -/

theorem ok_bind {ε α β : Type} (a : α) (f : α → Except ε β) :
    (Except.ok a >>= f : Except ε β) = f a := rfl

set_option maxRecDepth 4096 in
theorem flag_reconstruct :
    ∀ flag < 256, 0b11111010 &&& flag = 0 →
      ((if (0b00000100 &&& flag) != 0 then 0b0000100 else 0) |||
        (if (0b00000001 &&& flag) != 0 then 0b00000001 else 0)) = flag := by
  decide

/-! ## C3: Header encode/decode round trips -/

/-- C3: for every `Header` with version 1 and `data_offset` 9 (any flag
combination), decoding its 9-byte encoding reproduces it exactly; and for
every 9-byte array that decodes successfully, re-encoding the decoded
`Header` reproduces the original bytes. -/
theorem header_roundtrip :
    (∀ h : Header, h.version = 1 → h.data_offset = 9 →
      Header.tryFrom (Header.toBytes h) = .ok h) ∧
    (∀ b : List Nat, b.length = 9 → (∀ x ∈ b, x < 256) →
      ∀ h : Header, Header.tryFrom b = .ok h → Header.toBytes h = b) := by
  constructor
  · rintro ⟨ver, a, v, dof⟩ h1 h9
    replace h1 : ver = 1 := h1
    replace h9 : dof = 9 := h9
    subst h1 h9
    cases a <;> cases v <;> rfl
  · intro b hlen hbytes h hok
    rcases b with _ | ⟨f, _ | ⟨l, _ | ⟨v, _ | ⟨ver, _ | ⟨flag, _ | ⟨d1, _ | ⟨d2, _ |
      ⟨d3, _ | ⟨d4, _ | ⟨x, rest⟩⟩⟩⟩⟩⟩⟩⟩⟩⟩ <;>
      first
      | (simp at hlen ; done)
      | skip
    have hflag : flag < 256 := hbytes flag (by simp)
    have hd1 : d1 < 256 := hbytes d1 (by simp)
    have hd2 : d2 < 256 := hbytes d2 (by simp)
    have hd3 : d3 < 256 := hbytes d3 (by simp)
    have hd4 : d4 < 256 := hbytes d4 (by simp)
    simp only [Header.tryFrom] at hok
    split_ifs at hok with hsig hver hres hoff
    simp only [Except.ok.injEq] at hok
    subst hok
    simp only [Header.SIGNATURE, List.cons.injEq, and_true] at hsig
    obtain ⟨hf, hl, hv⟩ := hsig
    simp only [Header.VERSION_1, Decidable.not_not] at hver
    simp only [Decidable.not_not] at hres hoff
    have hoff9 : d1 = 0 ∧ d2 = 0 ∧ d3 = 0 ∧ d4 = 9 := by
      simp only [fromBE4, Header.SIZE] at hoff
      omega
    simp only [Header.toBytes, toBE4, Header.SIZE]
    subst hf hl hv hver
    rw [flag_reconstruct flag hflag hres]
    simp [hoff9.1, hoff9.2.1, hoff9.2.2.1, hoff9.2.2.2]

/-! ## C10: encoding always writes data_offset = 9 -/

/-- C10: the encoder writes the data-offset field as the constant 9
(big-endian) regardless of `h.data_offset`, so for version-1 headers the
decode of the encode yields the header with `data_offset` replaced by 9. -/
theorem header_encode_const_data_offset :
    (∀ h : Header, (Header.toBytes h).drop 5 = [0, 0, 0, 9]) ∧
    (∀ h : Header, h.version = 1 →
      Header.tryFrom (Header.toBytes h) = .ok { h with data_offset := 9 }) := by
  constructor
  · rintro ⟨ver, a, v, dof⟩
    simp [Header.toBytes, toBE4, Header.SIZE]
  · rintro ⟨ver, a, v, dof⟩ h1
    replace h1 : ver = 1 := h1
    subst h1
    have ht : Header.toBytes ⟨1, a, v, dof⟩ = Header.toBytes ⟨1, a, v, 0⟩ := rfl
    rw [ht]
    cases a <;> cases v <;> rfl

/-- Witness for C3 at concrete inputs: the round trip of a version-1
header with audio only, and byte-level re-encoding of a decoded array. -/
theorem header_roundtrip_check :
    (Header.tryFrom (Header.toBytes ⟨1, true, false, 9⟩) = .ok ⟨1, true, false, 9⟩) ∧
    (Header.toBytes ⟨1, true, true, 9⟩ = [70, 76, 86, 1, 5, 0, 0, 0, 9]) :=
  ⟨header_roundtrip.1 ⟨1, true, false, 9⟩ rfl rfl,
   header_roundtrip.2 [70, 76, 86, 1, 5, 0, 0, 0, 9] rfl (by decide) ⟨1, true, true, 9⟩ rfl⟩

/-- Witness for C10 at a concrete header whose stored data_offset is 77. -/
theorem header_encode_const_data_offset_check :
    (Header.toBytes ⟨1, false, true, 77⟩).drop 5 = [0, 0, 0, 9] ∧
    Header.tryFrom (Header.toBytes ⟨1, false, true, 77⟩) = .ok ⟨1, false, true, 9⟩ :=
  ⟨header_encode_const_data_offset.1 ⟨1, false, true, 77⟩,
   header_encode_const_data_offset.2 ⟨1, false, true, 77⟩ rfl⟩

/-! ## C4: TagHeader encode/decode round trip -/

/-- C4: for every `TagHeader` whose tag type is `Audio`, `Video`,
`ScriptData`, or `Reserved n` with `n ∉ {8, 9, 18}`, whose `data_size`
is at most 0x00FFFFFF, and whose timestamp is any 32-bit signed value,
decoding the 11-byte encoding reproduces the header exactly. -/
theorem tagHeader_roundtrip (th : TagHeader)
    (htt : ∀ n, th.tag_type = .Reserved n → n ∉ ([8, 9, 18] : List Nat))
    (hds : th.data_size ≤ TagHeader.MAX_DATA_SIZE)
    (hlo : -2 ^ 31 ≤ th.timestamp) (hhi : th.timestamp < 2 ^ 31) :
    TagHeader.fromBytes (TagHeader.toBytes th) = th := by
  obtain ⟨tt, ds, ts⟩ := th
  simp only [TagHeader.MAX_DATA_SIZE] at hds
  simp only at htt hlo hhi
  have hts0 : (0 : Int) ≤ ts % 2 ^ 32 := Int.emod_nonneg ts (by norm_num)
  have hts1 : ts % 2 ^ 32 < 2 ^ 32 := Int.emod_lt_of_pos ts (by norm_num)
  simp only [TagHeader.toBytes, TagHeader.fromBytes, TagHeader.mk.injEq]
  refine ⟨?_, ?_, ?_⟩
  · cases tt with
    | Reserved n =>
      have h := htt n rfl
      simp only [List.mem_cons, List.mem_singleton, not_or] at h
      simp [TagType.toU8, h.1, h.2.1, h.2.2]
    | Audio => rfl
    | Video => rfl
    | ScriptData => rfl
  · simp only [fromBE4]
    omega
  · simp only [i32FromBE, fromBE4]
    split <;> omega

/-- Witness for C4: a `Reserved 77` tag with maximal data size and
timestamp -1 round trips. -/
theorem tagHeader_roundtrip_check :
    TagHeader.fromBytes (TagHeader.toBytes ⟨.Reserved 77, 0xFFFFFF, -1⟩) =
      ⟨.Reserved 77, 0xFFFFFF, -1⟩ :=
  tagHeader_roundtrip ⟨.Reserved 77, 0xFFFFFF, -1⟩
    (by intro n hn; cases hn; decide) (by decide) (by decide) (by decide)

/-! ## C9: TagHeader decoding is total and unvalidated -/

/-- C9: decoding an arbitrary 11-byte array always succeeds (the codec is
a total function): byte 8/9/18 maps to `Audio`/`Video`/`ScriptData`, any
other byte to `Reserved` of itself, and the 24-bit data_size field is
taken as-is (hence also never exceeds 0x00FFFFFF for byte-valued input);
the timestamp is recomposed from bytes 7 and 4-6. -/
theorem tagHeader_decode_total (b0 b1 b2 b3 b4 b5 b6 b7 c0 c1 c2 : Nat)
    (h1 : b1 < 256) (h2 : b2 < 256) (h3 : b3 < 256) :
    ((b0 = 8 → (TagHeader.fromBytes [b0, b1, b2, b3, b4, b5, b6, b7, c0, c1, c2]).tag_type = .Audio) ∧
     (b0 = 9 → (TagHeader.fromBytes [b0, b1, b2, b3, b4, b5, b6, b7, c0, c1, c2]).tag_type = .Video) ∧
     (b0 = 18 → (TagHeader.fromBytes [b0, b1, b2, b3, b4, b5, b6, b7, c0, c1, c2]).tag_type = .ScriptData) ∧
     (b0 ∉ ([8, 9, 18] : List Nat) →
       (TagHeader.fromBytes [b0, b1, b2, b3, b4, b5, b6, b7, c0, c1, c2]).tag_type = .Reserved b0)) ∧
    (TagHeader.fromBytes [b0, b1, b2, b3, b4, b5, b6, b7, c0, c1, c2]).data_size =
      (b1 * 256 + b2) * 256 + b3 ∧
    (TagHeader.fromBytes [b0, b1, b2, b3, b4, b5, b6, b7, c0, c1, c2]).data_size ≤
      TagHeader.MAX_DATA_SIZE ∧
    (TagHeader.fromBytes [b0, b1, b2, b3, b4, b5, b6, b7, c0, c1, c2]).timestamp =
      i32FromBE b7 b4 b5 b6 := by
  refine ⟨⟨?_, ?_, ?_, ?_⟩, ?_, ?_, ?_⟩
  · intro h; subst h; rfl
  · intro h; subst h; rfl
  · intro h; subst h; rfl
  · intro h
    simp only [List.mem_cons, List.mem_singleton, not_or] at h
    simp [TagHeader.fromBytes, h.1, h.2.1, h.2.2]
  · simp only [TagHeader.fromBytes, fromBE4]
    ring
  · simp only [TagHeader.fromBytes, fromBE4, TagHeader.MAX_DATA_SIZE]
    omega
  · rfl

/-- Witness for C9 at a concrete reserved-type byte array. -/
theorem tagHeader_decode_total_check :
    (TagHeader.fromBytes [77, 255, 255, 255, 1, 2, 3, 4, 0, 0, 0]).tag_type = .Reserved 77 ∧
    (TagHeader.fromBytes [77, 255, 255, 255, 1, 2, 3, 4, 0, 0, 0]).data_size =
      (255 * 256 + 255) * 256 + 255 :=
  ⟨(tagHeader_decode_total 77 255 255 255 1 2 3 4 0 0 0 (by decide) (by decide)
      (by decide)).1.2.2.2 (by decide),
   (tagHeader_decode_total 77 255 255 255 1 2 3 4 0 0 0 (by decide) (by decide)
      (by decide)).2.1⟩

/-! ## C5: read_tag_header outcome trichotomy -/

/-- C5: with zero bytes available `read_tag_header` returns the clean
"no more tags" success (`Ok(None)`); with 1-10 of the 11 header bytes it
returns the truncated-stream I/O error (distinct from the clean outcome);
with at least 11 bytes it returns the decoded header. -/
theorem readTagHeader_trichotomy (s : Src) :
    (s.length = 0 → readTagHeader s = .ok (none, s)) ∧
    (1 ≤ s.length → s.length ≤ 10 → readTagHeader s = .error (.Io .UnexpectedEof)) ∧
    (11 ≤ s.length → readTagHeader s = .ok (some (TagHeader.fromBytes (s.take 11)), s.drop 11)) := by
  refine ⟨?_, ?_, ?_⟩
  · intro h
    rw [List.length_eq_zero] at h
    subst h
    rfl
  · intro h1 h10
    simp only [readTagHeader, tryReadExact, TagHeader.SIZE]
    rw [if_neg (by norm_num), if_neg (by omega), if_pos (by omega)]
  · intro h11
    simp only [readTagHeader, tryReadExact, TagHeader.SIZE]
    rw [if_neg (by norm_num), if_neg (by omega), if_neg (by omega)]

/-- Witness for C5: all three outcomes at concrete sources. -/
theorem readTagHeader_trichotomy_check :
    readTagHeader [] = .ok (none, []) ∧
    readTagHeader [1, 2, 3] = .error (.Io .UnexpectedEof) ∧
    readTagHeader [8, 0, 0, 2, 0, 0, 5, 0, 0, 0, 0, 42] =
      .ok (some (TagHeader.fromBytes ([8, 0, 0, 2, 0, 0, 5, 0, 0, 0, 0, 42].take 11)),
        [8, 0, 0, 2, 0, 0, 5, 0, 0, 0, 0, 42].drop 11) :=
  ⟨(readTagHeader_trichotomy []).1 rfl,
   (readTagHeader_trichotomy [1, 2, 3]).2.1 (by decide) (by decide),
   (readTagHeader_trichotomy [8, 0, 0, 2, 0, 0, 5, 0, 0, 0, 0, 42]).2.2 (by decide)⟩

/-! ## C7: read_data reads exactly its argument, not argument minus one -/

/-- C7 counterexample: `read_data(2)` on an available source returns 2
bytes, not `2 - 1`, refuting "read_data(declared_size) reads and returns
exactly declared_size minus one bytes". -/
theorem readData_minus_one_cex :
    readData 2 [7, 8, 9] = .ok ([7, 8], [9]) ∧ ([7, 8] : List Nat).length ≠ 2 - 1 :=
  ⟨rfl, by decide⟩

/-- C7 amended: `read_data(len)` reads and returns exactly `len` bytes
when they are available; the exclusion of the already-consumed sub-header
byte happens in the caller, which passes `declared_size - 1`. -/
theorem readData_reads_exactly (len : Nat) (s : Src) (h : len ≤ s.length) :
    readData len s = .ok (s.take len, s.drop len) ∧ (s.take len).length = len := by
  constructor
  · simp only [readData, tryReadExact]
    split_ifs with h0 h1 h2
    · subst h0
      simp
    · omega
    · omega
    · rfl
  · rw [List.length_take]
    omega

/-- Witness for C7's amended statement at `len = 2`. -/
theorem readData_reads_exactly_check :
    readData 2 [7, 8, 9] = .ok (([7, 8, 9] : List Nat).take 2, ([7, 8, 9] : List Nat).drop 2) ∧
    (([7, 8, 9] : List Nat).take 2).length = 2 :=
  readData_reads_exactly 2 [7, 8, 9] (by decide)

/-! ## C1: the writer's data_size field excludes the sub-header byte -/

/-- C1 (divergence evaluation): `write_video_tag` with a payload of
length 0x00FFFFFF — total sub-header + payload = 0x01000000, which the
spec says must be rejected — succeeds, and the 24-bit data_size field it
emits is the payload length 0x00FFFFFF (bytes 255,255,255), not
1 + payload length; the `DataSize` rejection only fires from payload
length 0x01000000 on (checked before anything is written). -/
theorem writer_data_size_excludes_subheader :
    (writeVideoTag [] 0 ⟨.KeyFrame, .AVC⟩ (List.replicate (2 ^ 24 - 1) 0) =
      .ok (TagHeader.toBytes ⟨.Video, 2 ^ 24 - 1, 0⟩ ++ [23] ++
        List.replicate (2 ^ 24 - 1) 0, TagHeader.SIZE + 1 + (2 ^ 24 - 1))) ∧
    (TagHeader.toBytes ⟨.Video, 2 ^ 24 - 1, 0⟩).take 4 = [9, 255, 255, 255] ∧
    (writeAudioTag [] 0 ⟨.AAC, .R44kHz, .S16Bit, .Stereo⟩ (List.replicate (2 ^ 24) 0) =
      .error (.DataSize (2 ^ 24))) := by
  refine ⟨?_, by rfl, ?_⟩
  · simp only [writeVideoTag, writeTag, List.length_replicate]
    rw [if_neg (by norm_num [TagHeader.MAX_DATA_SIZE])]
    rw [List.nil_append]
    rw [show VideoDataHeader.toU8 ⟨.KeyFrame, .AVC⟩ = 23 from rfl]
  · simp only [writeAudioTag, writeTag, List.length_replicate]
    rw [if_pos (by norm_num [TagHeader.MAX_DATA_SIZE])]

/-! ## C2: MetaData::seek is a predecessor query -/

theorem seekLoop_eq (T : Nat) :
    ∀ (l : List (Nat × Nat)) (acc : Option (Nat × Nat)),
      List.Pairwise (fun a b : Nat × Nat => a.1 < b.1) l →
      seekLoop T l acc = ((l.filter fun p => decide (p.1 ≤ T)).getLast?).or acc := by
  intro l
  induction l with
  | nil => intro acc h; simp [seekLoop]
  | cons p rest ih =>
    intro acc h
    obtain ⟨hp, hrest⟩ := List.pairwise_cons.mp h
    obtain ⟨ts, off⟩ := p
    by_cases hlt : ts < T
    · rw [show seekLoop T ((ts, off) :: rest) acc =
        seekLoop T rest (some (ts, off)) from by simp [seekLoop, hlt]]
      rw [ih _ hrest]
      rw [List.filter_cons_of_pos (by simp; omega)]
      cases hfl : rest.filter fun p => decide (p.1 ≤ T) with
      | nil => simp
      | cons q qs =>
        rw [List.getLast?_cons_cons]
        have hs : ((q :: qs).getLast?).isSome := by
          rw [Option.isSome_iff_ne_none]
          simp [List.getLast?_eq_none_iff]
        obtain ⟨x, hx⟩ := Option.isSome_iff_exists.mp hs
        rw [hx, Option.or_some, Option.or_some]
    · have hfr : rest.filter (fun p => decide (p.1 ≤ T)) = [] := by
        rw [List.filter_eq_nil_iff]
        intro a ha
        have := hp a ha
        simp
        omega
      by_cases hgt : T < ts
      · rw [show seekLoop T ((ts, off) :: rest) acc = acc from by simp [seekLoop, hlt, hgt]]
        rw [List.filter_cons_of_neg (by simp; omega), hfr]
        simp
      · have hts : ts = T := by omega
        rw [show seekLoop T ((ts, off) :: rest) acc = some (T, off) from by
          simp [seekLoop, hlt, hgt]]
        rw [List.filter_cons_of_pos (by simp; omega), hfr]
        simp [hts]

theorem pairwise_getLast?_ge {α : Type} {R : α → α → Prop} :
    ∀ l : List α, l.Pairwise R → ∀ q, l.getLast? = some q → ∀ p ∈ l, p = q ∨ R p q := by
  intro l
  induction l with
  | nil => simp
  | cons a rest ih =>
    intro h q hq p hp
    obtain ⟨ha, hrest⟩ := List.pairwise_cons.mp h
    cases rest with
    | nil =>
      simp only [List.getLast?_singleton, Option.some.injEq] at hq
      simp only [List.mem_singleton] at hp
      left
      rw [hp, hq]
    | cons b bs =>
      rw [List.getLast?_cons_cons] at hq
      rcases List.mem_cons.mp hp with rfl | hp2
      · right
        exact ha q (List.mem_of_getLast?_eq_some hq)
      · exact ih hrest q hq p hp2

/-- C2: with no keyframe mapping `seek` returns nothing; with a mapping
whose keys are strictly ascending (as `BTreeMap` iteration yields),
`seek T` returns nothing exactly when every keyframe timestamp exceeds
`T`, and otherwise returns the pair of the greatest timestamp ≤ `T`
(an exact match returns that entry); on the index
{0→0, 1000→500, 2000→1200}: seek 1500 = (1000, 500),
seek 1000 = (1000, 500), seek 50 = (0, 0). -/
theorem metadata_seek_greatest (m : MetaData) (T : Nat) (kf : List (Nat × Nat))
    (hkf : m.keyframes = some kf)
    (hsort : List.Pairwise (fun a b : Nat × Nat => a.1 < b.1) kf) :
    (m.seek T = none ↔ ∀ p ∈ kf, T < p.1) ∧
    (∀ q, m.seek T = some q → q ∈ kf ∧ q.1 ≤ T ∧ ∀ p ∈ kf, p.1 ≤ T → p.1 ≤ q.1) ∧
    (∀ m' : MetaData, m'.keyframes = none → m'.seek T = none) ∧
    (MetaData.seek { keyframes := some [(0, 0), (1000, 500), (2000, 1200)] } 1500 =
        some (1000, 500) ∧
      MetaData.seek { keyframes := some [(0, 0), (1000, 500), (2000, 1200)] } 1000 =
        some (1000, 500) ∧
      MetaData.seek { keyframes := some [(0, 0), (1000, 500), (2000, 1200)] } 50 =
        some (0, 0)) := by
  have hseek : m.seek T = (kf.filter fun p => decide (p.1 ≤ T)).getLast? := by
    simp only [MetaData.seek, hkf]
    rw [seekLoop_eq T kf none hsort, Option.or_none]
  refine ⟨?_, ?_, ?_, by decide, by decide, by decide⟩
  · rw [hseek]
    rw [List.getLast?_eq_none_iff, List.filter_eq_nil_iff]
    constructor
    · intro h p hp
      have := h p hp
      simp at this
      omega
    · intro h p hp
      have := h p hp
      simp
      omega
  · intro q hq
    rw [hseek] at hq
    have hqf : q ∈ kf.filter fun p => decide (p.1 ≤ T) := List.mem_of_getLast?_eq_some hq
    have hqkf := List.mem_filter.mp hqf
    refine ⟨hqkf.1, by have := hqkf.2; simp at this; omega, ?_⟩
    intro p hp hpT
    have hpf : p ∈ kf.filter fun p => decide (p.1 ≤ T) :=
      List.mem_filter.mpr ⟨hp, by simp; omega⟩
    have hfsort : (kf.filter fun p => decide (p.1 ≤ T)).Pairwise
        (fun a b : Nat × Nat => a.1 < b.1) :=
      hsort.sublist (List.filter_sublist kf)
    rcases pairwise_getLast?_ge _ hfsort q hq p hpf with rfl | hlt
    · exact le_refl _
    · exact le_of_lt hlt
  · intro m' hm'
    simp [MetaData.seek, hm']

/-! ## C6: the declared entry count is authoritative, not informational -/

/-- C6 counterexample: a well-formed payload with one actual entry but a
declared count of 2 fails to decode (the loop consumes the end-of-object
marker bytes as a second entry and hits marker byte 9), refuting the
claim that such a payload "still decodes by stopping at the
end-of-object marker". -/
theorem metadata_count_cex :
    readMetadata (countPayload 2) = .error (.Unimplemented 9) := by rfl

/-- C6 amended: the 4-byte entry count is authoritative: the decoder
iterates exactly the declared number of entries and only then requires the
end-of-object marker; the same one-entry payload decodes when the declared
count is 1, and fails when the declared count is 2 (too many) or 0 (too
few, the end-marker read hits entry bytes). -/
theorem metadata_count_authoritative :
    readMetadata (countPayload 1) =
      .ok ({ duration := fromBE8 64 69 0 0 0 0 0 0 }, []) ∧
    readMetadata (countPayload 2) = .error (.Unimplemented 9) ∧
    readMetadata (countPayload 0) = .error (.Other "invalid end of object") :=
  ⟨rfl, rfl, rfl⟩

/-! ## C8: recognized keys populate their fields, unknown keys are
decoded and discarded -/

theorem readU8_cons (b : Nat) (s : Src) : readU8 (b :: s) = .ok (b, s) := rfl

theorem readU32_cons (b0 b1 b2 b3 : Nat) (s : Src) :
    readU32 (b0 :: b1 :: b2 :: b3 :: s) = .ok (fromBE4 b0 b1 b2 b3, s) := rfl

theorem readF64Bits_cons (x0 x1 x2 x3 x4 x5 x6 x7 : Nat) (s : Src) :
    readF64Bits (x0 :: x1 :: x2 :: x3 :: x4 :: x5 :: x6 :: x7 :: s) =
      .ok (fromBE8 x0 x1 x2 x3 x4 x5 x6 x7, s) := rfl

theorem readEndMarker_nine (s : Src) : readEndMarker (0 :: 0 :: 9 :: s) = .ok ((), s) := rfl

theorem readU16_lp16 (v : List Nat) (s : Src) :
    readU16 (lp16 v ++ s) = .ok (v.length, v ++ s) := by
  simp only [lp16, List.cons_append, readU16, Except.ok.injEq, Prod.mk.injEq, and_true]
  omega

theorem readBytesN_self (v : List Nat) (s : Src) : readBytesN v.length (v ++ s) = .ok (v, s) := by
  simp [readBytesN, List.take_left, List.drop_left]

theorem readString_self (v : List Nat) (s : Src) (hv : validUtf8 v = true) :
    readString v.length (v ++ s) = .ok (v, s) := by
  simp [readString, readBytesN_self, hv, ok_bind]

theorem readEntriesLoop_double (n : Nat) (md : MetaData) (k : List Nat)
    (hk : validUtf8 k = true) (x0 x1 x2 x3 x4 x5 x6 x7 : Nat) (s : Src) :
    readEntriesLoop (n + 1) md
        (lp16 k ++ ((0 : Nat) :: x0 :: x1 :: x2 :: x3 :: x4 :: x5 :: x6 :: x7 :: s)) =
      readEntriesLoop n (setDoubleField md k (fromBE8 x0 x1 x2 x3 x4 x5 x6 x7)) s := by
  simp only [readEntriesLoop, readU16_lp16, ok_bind, readString_self _ _ hk,
    readU8_cons, readF64Bits_cons]
  norm_num

theorem readEntriesLoop_bool (n : Nat) (md : MetaData) (k : List Nat)
    (hk : validUtf8 k = true) (b : Nat) (s : Src) :
    readEntriesLoop (n + 1) md (lp16 k ++ ((1 : Nat) :: b :: s)) =
      readEntriesLoop n (setBoolField md k (b != 0)) s := by
  simp only [readEntriesLoop, readU16_lp16, ok_bind, readString_self _ _ hk, readU8_cons]
  norm_num

theorem readEntriesLoop_str (n : Nat) (md : MetaData) (k : List Nat)
    (hk : validUtf8 k = true) (v : List Nat) (hv : validUtf8 v = true) (s : Src) :
    readEntriesLoop (n + 1) md (lp16 k ++ ((2 : Nat) :: (lp16 v ++ s))) =
      readEntriesLoop n (setStringField md k v) s := by
  simp only [readEntriesLoop, readU16_lp16, ok_bind, readString_self _ _ hk,
    readString_self _ _ hv, readU8_cons]
  norm_num

theorem setDoubleField_duration (md : MetaData) (v : Nat) :
    setDoubleField md (ascii "duration") v = { md with duration := v } := rfl

theorem setBoolField_stereo (md : MetaData) (v : Bool) :
    setBoolField md (ascii "stereo") v = { md with stereo := v } := rfl

theorem setStringField_encoder (md : MetaData) (v : List Nat) :
    setStringField md (ascii "encoder") v = { md with encoder := v } := rfl

theorem setDoubleField_unknown (md : MetaData) (k : List Nat) (v : Nat)
    (h : k ∉ doubleKeys) : setDoubleField md k v = md := by
  simp only [doubleKeys, List.mem_cons, List.not_mem_nil, or_false, not_or] at h
  obtain ⟨h1, h2, h3, h4, h5, h6, h7, h8, h9, h10, h11, h12, h13, h14, h15, h16, h17⟩ := h
  simp [setDoubleField, h1, h2, h3, h4, h5, h6, h7, h8, h9, h10, h11, h12, h13,
    h14, h15, h16, h17]

/-- C8: decoding a well-formed onMetaData payload whose entries are
duration (any double), stereo (any boolean byte), encoder (any UTF-8
string), plus one entry with an unrecognized key and a double value,
yields a `MetaData` in which exactly duration, stereo and encoder carry
the decoded values and every other field keeps its default; the
unknown-key entry is fully consumed and discarded. -/
theorem metadata_known_keys (d0 d1 d2 d3 d4 d5 d6 d7 sb : Nat) (v u : List Nat)
    (w0 w1 w2 w3 w4 w5 w6 w7 : Nat)
    (hv : validUtf8 v = true) (hvlen : v.length < 65536)
    (hu : validUtf8 u = true) (hulen : u.length < 65536)
    (hukey : u ∉ doubleKeys) :
    readMetadata
        (knownKeysPayload d0 d1 d2 d3 d4 d5 d6 d7 sb v u w0 w1 w2 w3 w4 w5 w6 w7) =
      .ok ({ duration := fromBE8 d0 d1 d2 d3 d4 d5 d6 d7,
             stereo := sb != 0,
             encoder := v }, []) := by
  simp only [readMetadata, knownKeysPayload, List.append_assoc, List.cons_append,
    List.nil_append, readU8_cons, ok_bind, readU16_lp16,
    readString_self _ _ (show validUtf8 (ascii "onMetaData") = true from rfl),
    readU32_cons]
  norm_num [fromBE4]
  rw [show (4 : Nat) = 3 + 1 from rfl,
    readEntriesLoop_double 3 _ _ (show validUtf8 (ascii "duration") = true from rfl)]
  rw [show (3 : Nat) = 2 + 1 from rfl,
    readEntriesLoop_bool 2 _ _ (show validUtf8 (ascii "stereo") = true from rfl)]
  rw [show (2 : Nat) = 1 + 1 from rfl,
    readEntriesLoop_str 1 _ _ (show validUtf8 (ascii "encoder") = true from rfl) _ hv]
  rw [show (1 : Nat) = 0 + 1 from rfl, readEntriesLoop_double 0 _ _ hu]
  rw [setDoubleField_duration, setBoolField_stereo, setStringField_encoder,
    setDoubleField_unknown _ _ _ hukey]
  simp only [readEntriesLoop, readEndMarker_nine, ok_bind]

/-- Witness for C8 at concrete entry values (duration 42.0, stereo byte 1,
encoder "Lavf", unknown key "custom"). -/
theorem metadata_known_keys_check :
    readMetadata (knownKeysPayload 64 69 0 0 0 0 0 0 1 (ascii "Lavf") (ascii "custom")
        1 2 3 4 5 6 7 8) =
      .ok ({ duration := fromBE8 64 69 0 0 0 0 0 0, stereo := true,
             encoder := ascii "Lavf" }, []) :=
  metadata_known_keys 64 69 0 0 0 0 0 0 1 (ascii "Lavf") (ascii "custom") 1 2 3 4 5 6 7 8
    (by decide) (by decide) (by decide) (by decide) (by decide)

/-- Witness for C2: applying the predecessor-query characterization on the
concrete index at target 1500 identifies (1000, 500). -/
theorem metadata_seek_greatest_check :
    (1000, 500) ∈ ([(0, 0), (1000, 500), (2000, 1200)] : List (Nat × Nat)) ∧
    (1000 : Nat) ≤ 1500 ∧
    ∀ p ∈ ([(0, 0), (1000, 500), (2000, 1200)] : List (Nat × Nat)),
      p.1 ≤ 1500 → p.1 ≤ 1000 :=
  (metadata_seek_greatest { keyframes := some [(0, 0), (1000, 500), (2000, 1200)] } 1500
    [(0, 0), (1000, 500), (2000, 1200)] rfl (by decide)).2.1 (1000, 500) (by decide)

end Flv
